import Mathlib

/-!
Shallow embedding of the snekrs snake game (src/game.rs) and verification of
its specified behaviour.

Modelling notes:
* Coordinates are `u16` in the source; they are embedded as `Nat`, with the
  one-step increment/decrement performed modulo 2^16 (`u16add1`, `u16sub1`)
  in `newHead`, mirroring the wrapping behaviour of unsigned arithmetic.
  The score is `u32` in the source; it is embedded as `Nat` (the score is
  bounded by the snake length, which never reaches 2^32, so overflow is
  unrepresentable in any reachable state).
* The random number generator is embedded as an explicit stream
  `f : Nat -> Nat x Nat` of raw draws together with a cursor `k`; each call
  of `generate_food` consumes one pair of draws.  `gen_range(1..WIDTH-1)` on
  a raw draw `r` is `1 + r % (WIDTH-2)`, which is exactly the set of values
  the source can produce.
* The retry loop of `spawn_food` terminates only when the stream eventually
  proposes a cell off the snake; `spawnFood` takes that hypothesis and picks
  the first such proposal via `Nat.find`, and `spawnLoop` is the literal
  fuelled loop, proved below to agree with `spawnFood`.
* The `VecDeque` snake is a `List Position` with the head at the front;
  `push_front` is `cons` and `pop_back` is `dropLast`.
* `snake.front().unwrap()` is embedded as `List.headI`; the snake of every
  reachable state is nonempty, so the `unwrap` never panics.
-/

namespace Snekrs

/-- Board width, `const WIDTH: u16 = 40` in src/game.rs. -/
def WIDTH : Nat := 40

/-- Board height, `const HEIGHT: u16 = 20` in src/game.rs. -/
def HEIGHT : Nat := 20

/-- The modulus of `u16` arithmetic. -/
def U16 : Nat := 65536

/-- A point on the board (`struct Position { x: u16, y: u16 }`). -/
structure Position where
  x : Nat
  y : Nat
deriving DecidableEq

instance : Inhabited Position := ⟨⟨0, 0⟩⟩

/-- Movement directions (`enum Direction`). -/
inductive Direction where
  | Up
  | Down
  | Left
  | Right
deriving DecidableEq

/-- The direction opposite to a given one (the source hard-codes the four
pairs in its key handler; this is the same total mapping). -/
def Direction.opposite : Direction → Direction
  | .Up => .Down
  | .Down => .Up
  | .Left => .Right
  | .Right => .Left

/-- The game state (`struct Game`), without the wall-clock `last_update`
field, which only paces the loop and carries no game logic. -/
structure Game where
  snake : List Position
  food : Position
  direction : Direction
  next_direction : Direction
  score : Nat
  game_over : Bool
deriving DecidableEq

/-- Increment of a `u16` coordinate, wrapping modulo 2^16. -/
def u16add1 (n : Nat) : Nat := (n + 1) % U16

/-- Decrement of a `u16` coordinate, wrapping modulo 2^16. -/
def u16sub1 (n : Nat) : Nat := (n + (U16 - 1)) % U16

/-- `Game::generate_food`: one random interior position, built from one raw
draw pair via `gen_range(1..WIDTH-1)` and `gen_range(1..HEIGHT-1)`. -/
def generateFood (r : Nat × Nat) : Position :=
  { x := 1 + r.1 % (WIDTH - 2), y := 1 + r.2 % (HEIGHT - 2) }

/-- The occupancy test of src/game.rs lines 87 and 119:
`snake.iter().any(|pos| pos.x == p.x && pos.y == p.y)`. -/
def onSnake (snake : List Position) (p : Position) : Bool :=
  snake.any fun q => q.x == p.x && q.y == p.y

/-- `Game::spawn_food`: draw interior positions from the stream `f` starting
at cursor `k` until one misses `snake`; return it with the new cursor.  The
hypothesis `h` is exactly termination of the source's retry loop. -/
def spawnFood (f : Nat → Nat × Nat) (k : Nat) (snake : List Position)
    (h : ∃ n, onSnake snake (generateFood (f (k + n))) = false) : Position × Nat :=
  (generateFood (f (k + Nat.find h)), k + Nat.find h + 1)

/-- The retry loop of `Game::spawn_food` written as a fuelled loop: examine
candidates `generateFood (f k)`, `generateFood (f (k+1))`, ... and return the
first one off the snake, or `none` when the fuel runs out first. -/
def spawnLoop (f : Nat → Nat × Nat) (snake : List Position) :
    Nat → Nat → Option (Position × Nat)
  | _, 0 => none
  | k, fuel + 1 =>
    if onSnake snake (generateFood (f k)) then spawnLoop f snake (k + 1) fuel
    else some (generateFood (f k), k + 1)

/-- The new-head computation of `Game::update` (src/game.rs lines 103-109),
one cell from `head` in direction `d`, in wrapping `u16` arithmetic. -/
def newHead (head : Position) (d : Direction) : Position :=
  match d with
  | .Up => { x := head.x, y := u16sub1 head.y }
  | .Down => { x := head.x, y := u16add1 head.y }
  | .Left => { x := u16sub1 head.x, y := head.y }
  | .Right => { x := u16add1 head.x, y := head.y }

/-- The head the snake would move to this tick: the front segment
(`snake.front().unwrap()`) offset by the committed direction, which is the
buffered `next_direction` (src/game.rs line 100). -/
def nextHead (g : Game) : Position :=
  newHead g.snake.headI g.next_direction

/-- The wall test of src/game.rs line 113. -/
def isWall (p : Position) : Bool :=
  p.x == 0 || p.x == WIDTH - 1 || p.y == 0 || p.y == HEIGHT - 1

/-- Termination of the spawn retry loop for the grown snake of state `g`:
the stream eventually proposes a cell off `nextHead g :: g.snake`. -/
def FoodSupply (f : Nat → Nat × Nat) (k : Nat) (g : Game) : Prop :=
  ∃ n, onSnake (nextHead g :: g.snake) (generateFood (f (k + n))) = false

/-- `Game::update` (src/game.rs lines 94-135).  Returns the new state and the
new random-stream cursor.  Branches, in source order: no-op when game over;
commit the buffered direction; wall collision; self collision against the
whole pre-move body; push the new head, then either eat (score up, spawn
food, keep the tail) or pop the tail. -/
def update (f : Nat → Nat × Nat) (k : Nat) (g : Game) (h : FoodSupply f k g) :
    Game × Nat :=
  if g.game_over then (g, k)
  else if isWall (nextHead g) then
    ({ g with direction := g.next_direction, game_over := true }, k)
  else if onSnake g.snake (nextHead g) then
    ({ g with direction := g.next_direction, game_over := true }, k)
  else if nextHead g = g.food then
    ({ g with snake := nextHead g :: g.snake,
              direction := g.next_direction,
              food := (spawnFood f k (nextHead g :: g.snake) h).1,
              score := g.score + 1 },
     (spawnFood f k (nextHead g :: g.snake) h).2)
  else
    ({ g with snake := (nextHead g :: g.snake).dropLast,
              direction := g.next_direction }, k)

/-- The directional key handler of `Game::run` (src/game.rs lines 201-212):
buffer `d` unless the current (not buffered) direction is its opposite. -/
def requestDirection (g : Game) (d : Direction) : Game :=
  if g.direction = d.opposite then g else { g with next_direction := d }

/-- The quit key handler of `Game::run` (src/game.rs line 213). -/
def requestQuit (g : Game) : Game :=
  { g with game_over := true }

/-- `Game::new` (src/game.rs lines 52-69): single segment at the board
center, food from one unchecked `generate_food` draw, both directions Right,
score 0, running.  Returns the state and the random-stream cursor. -/
def new (f : Nat → Nat × Nat) : Game × Nat :=
  ({ snake := [{ x := WIDTH / 2, y := HEIGHT / 2 }],
     food := generateFood (f 0),
     direction := .Right,
     next_direction := .Right,
     score := 0,
     game_over := false }, 1)

/-- A position in the interior of the board, strictly inside the one-cell
border ring. -/
def inInterior (p : Position) : Prop :=
  1 ≤ p.x ∧ p.x ≤ WIDTH - 2 ∧ 1 ≤ p.y ∧ p.y ≤ HEIGHT - 2

instance (p : Position) : Decidable (inInterior p) := by
  unfold inInterior; infer_instance

/-- The state invariant: nonempty duplicate-free snake, all segments in the
interior, and the buffered direction never opposite to the current one. -/
def Inv (g : Game) : Prop :=
  g.snake ≠ [] ∧ g.snake.Nodup ∧ (∀ p ∈ g.snake, inInterior p) ∧
    g.next_direction ≠ g.direction.opposite

/-- States reachable from `Game::new` by any interleaving of ticks
(`update`), directional key events and the quit key, over arbitrary
randomness. -/
inductive Reachable : Game → Prop where
  | init (f : Nat → Nat × Nat) : Reachable (new f).1
  | step (f : Nat → Nat × Nat) (k : Nat) (g : Game) (h : FoodSupply f k g) :
      Reachable g → Reachable (update f k g h).1
  | dir (g : Game) (d : Direction) : Reachable g → Reachable (requestDirection g d)
  | quit (g : Game) : Reachable g → Reachable (requestQuit g)

/-- `g'` is obtained from `g` by a (possibly empty) sequence of `update`
ticks, over arbitrary randomness. -/
inductive StepSeq : Game → Game → Prop where
  | refl (g : Game) : StepSeq g g
  | step (f : Nat → Nat × Nat) (k : Nat) (g : Game) (h : FoodSupply f k g)
      (g' : Game) : StepSeq (update f k g h).1 g' → StepSeq g g'

/-- A tick on state `g` consumes the food: the state is running and the
computed new head hits neither wall nor body but lands on the food. -/
def eatsFood (g : Game) : Prop :=
  g.game_over = false ∧ isWall (nextHead g) = false ∧
    onSnake g.snake (nextHead g) = false ∧ nextHead g = g.food

/-- A fixed random stream whose every draw is `(0, 0)`, so every proposed
food cell is `(1, 1)`; used to instantiate theorems on concrete states. -/
def rngZero : Nat → Nat × Nat := fun _ => (0, 0)

/-- Interior cells coded as numbers below `(WIDTH-2) * (HEIGHT-2)`; used to
bound the snake length by the interior cell count. -/
def posCode (p : Position) : Nat :=
  (p.x - 1) + (WIDTH - 2) * (p.y - 1)

/-- A length-2 snake at (5,5)-(4,5) moving Left, so the computed new head
(4,5) is exactly the cell occupied by its own tail. -/
def gTail : Game :=
  { snake := [{ x := 5, y := 5 }, { x := 4, y := 5 }], food := { x := 10, y := 10 },
    direction := .Left, next_direction := .Left, score := 0, game_over := false }

/-- A single-segment snake at (9,10) moving Right onto the food at (10,10). -/
def gEat : Game :=
  { snake := [{ x := 9, y := 10 }], food := { x := 10, y := 10 },
    direction := .Right, next_direction := .Right, score := 5, game_over := false }

/-- A single-segment snake at (38,10) moving Right into the wall column 39. -/
def gWall : Game :=
  { snake := [{ x := 38, y := 10 }], food := { x := 5, y := 5 },
    direction := .Right, next_direction := .Right, score := 2, game_over := false }

/-- A state whose game is already over. -/
def gOver : Game :=
  { snake := [{ x := 20, y := 10 }], food := { x := 5, y := 5 },
    direction := .Right, next_direction := .Right, score := 7, game_over := true }

/-- Under `rngZero` the first proposed food cell (1,1) already misses the
grown snake of `gTail`. -/
def hSupplyTail : FoodSupply rngZero 0 gTail := ⟨0, by decide⟩

/-- Under `rngZero` the first proposed food cell (1,1) already misses the
grown snake of `gEat`. -/
def hSupplyEat : FoodSupply rngZero 0 gEat := ⟨0, by decide⟩

/-- Under `rngZero` the first proposed food cell (1,1) already misses the
grown snake of `gWall`. -/
def hSupplyWall : FoodSupply rngZero 0 gWall := ⟨0, by decide⟩

/-- Under `rngZero` the first proposed food cell (1,1) already misses the
grown snake of `gOver`. -/
def hSupplyOver : FoodSupply rngZero 0 gOver := ⟨0, by decide⟩

/-- Under `rngZero` the first proposed food cell (1,1) already misses the
grown snake of the initial state. -/
def hSupplyNew : FoodSupply rngZero 1 (new rngZero).1 := ⟨0, by decide⟩

/-- Under `rngZero` the first proposed food cell (1,1) already misses the
singleton snake at the center. -/
def hSupplySingle :
    ∃ n, onSnake [{ x := 20, y := 10 }] (generateFood (rngZero (0 + n))) = false :=
  ⟨0, by decide⟩

lemma coord_match_iff (q p : Position) : (q.x == p.x && q.y == p.y) = true ↔ q = p := by
  cases p
  cases q
  simp [Position.mk.injEq]

lemma onSnake_iff (s : List Position) (p : Position) : onSnake s p = true ↔ p ∈ s := by
  unfold onSnake
  rw [List.any_eq_true]
  constructor
  · rintro ⟨q, hq, hm⟩
    rwa [(coord_match_iff q p).mp hm] at hq
  · intro hp
    exact ⟨p, hp, (coord_match_iff p p).mpr rfl⟩

lemma onSnake_false_iff (s : List Position) (p : Position) :
    onSnake s p = false ↔ p ∉ s := by
  rw [← onSnake_iff s p]
  cases onSnake s p <;> simp

lemma opposite_opposite (d : Direction) : d.opposite.opposite = d := by
  cases d <;> rfl

lemma ne_opposite_self (d : Direction) : d ≠ d.opposite := by
  cases d <;> simp [Direction.opposite]

lemma u16add1_eq (n : Nat) (h : n + 1 < U16) : u16add1 n = n + 1 := by
  unfold u16add1 U16 at *
  omega

lemma u16sub1_eq (n : Nat) (h1 : 1 ≤ n) (h2 : n < U16) : u16sub1 n = n - 1 := by
  unfold u16sub1 U16 at *
  omega

lemma generateFood_inInterior (r : Nat × Nat) : inInterior (generateFood r) := by
  unfold generateFood inInterior WIDTH HEIGHT
  refine ⟨?_, ?_, ?_, ?_⟩ <;> simp <;> omega

lemma spawnFood_not_mem (f : Nat → Nat × Nat) (k : Nat) (snake : List Position)
    (h : ∃ n, onSnake snake (generateFood (f (k + n))) = false) :
    (spawnFood f k snake h).1 ∉ snake := by
  have hs := Nat.find_spec h
  rw [onSnake_false_iff] at hs
  exact hs

lemma spawnFood_inInterior (f : Nat → Nat × Nat) (k : Nat) (snake : List Position)
    (h : ∃ n, onSnake snake (generateFood (f (k + n))) = false) :
    inInterior (spawnFood f k snake h).1 :=
  generateFood_inInterior _

lemma headI_mem (l : List Position) (h : l ≠ []) : l.headI ∈ l := by
  cases l with
  | nil => exact absurd rfl h
  | cons a t => exact List.mem_cons_self a t

lemma dropLast_cons_ne_nil (a : Position) (l : List Position) (h : l ≠ []) :
    (a :: l).dropLast = a :: l.dropLast := by
  cases l with
  | nil => exact absurd rfl h
  | cons b t => rfl

lemma mem_of_mem_dropLast (l : List Position) (p : Position)
    (h : p ∈ l.dropLast) : p ∈ l :=
  List.dropLast_subset l h

lemma nodup_dropLast (l : List Position) (h : l.Nodup) : l.dropLast.Nodup :=
  h.sublist (List.dropLast_sublist l)

lemma isWall_false_iff (p : Position) :
    isWall p = false ↔ p.x ≠ 0 ∧ p.x ≠ WIDTH - 1 ∧ p.y ≠ 0 ∧ p.y ≠ HEIGHT - 1 := by
  unfold isWall
  simp
  tauto

lemma update_of_game_over (f : Nat → Nat × Nat) (k : Nat) (g : Game)
    (h : FoodSupply f k g) (hgo : g.game_over = true) : update f k g h = (g, k) := by
  unfold update
  rw [if_pos hgo]

lemma update_of_wall (f : Nat → Nat × Nat) (k : Nat) (g : Game)
    (h : FoodSupply f k g) (hgo : g.game_over = false)
    (hw : isWall (nextHead g) = true) :
    update f k g h = ({ g with direction := g.next_direction, game_over := true }, k) := by
  unfold update
  rw [if_neg (by simp [hgo]), if_pos hw]

lemma update_of_self (f : Nat → Nat × Nat) (k : Nat) (g : Game)
    (h : FoodSupply f k g) (hgo : g.game_over = false)
    (hw : isWall (nextHead g) = false) (hs : onSnake g.snake (nextHead g) = true) :
    update f k g h = ({ g with direction := g.next_direction, game_over := true }, k) := by
  unfold update
  rw [if_neg (by simp [hgo]), if_neg (by simp [hw]), if_pos hs]

lemma update_of_eat (f : Nat → Nat × Nat) (k : Nat) (g : Game)
    (h : FoodSupply f k g) (hgo : g.game_over = false)
    (hw : isWall (nextHead g) = false) (hs : onSnake g.snake (nextHead g) = false)
    (hf : nextHead g = g.food) :
    update f k g h =
      ({ g with snake := nextHead g :: g.snake,
                direction := g.next_direction,
                food := (spawnFood f k (nextHead g :: g.snake) h).1,
                score := g.score + 1 },
       (spawnFood f k (nextHead g :: g.snake) h).2) := by
  unfold update
  rw [if_neg (by simp [hgo]), if_neg (by simp [hw]), if_neg (by simp [hs]), if_pos hf]

lemma update_of_move (f : Nat → Nat × Nat) (k : Nat) (g : Game)
    (h : FoodSupply f k g) (hgo : g.game_over = false)
    (hw : isWall (nextHead g) = false) (hs : onSnake g.snake (nextHead g) = false)
    (hf : nextHead g ≠ g.food) :
    update f k g h =
      ({ g with snake := (nextHead g :: g.snake).dropLast,
                direction := g.next_direction }, k) := by
  unfold update
  rw [if_neg (by simp [hgo]), if_neg (by simp [hw]), if_neg (by simp [hs]), if_neg hf]

lemma newHead_inInterior (hd : Position) (d : Direction) (hh : inInterior hd)
    (hw : isWall (newHead hd d) = false) : inInterior (newHead hd d) := by
  rw [isWall_false_iff] at hw
  obtain ⟨h1, h2, h3, h4⟩ := hh
  unfold inInterior WIDTH HEIGHT at *
  cases d
  · dsimp only [newHead] at hw ⊢
    rw [u16sub1_eq hd.y h3 (by unfold U16; omega)] at hw ⊢
    omega
  · dsimp only [newHead] at hw ⊢
    rw [u16add1_eq hd.y (by unfold U16; omega)] at hw ⊢
    omega
  · dsimp only [newHead] at hw ⊢
    rw [u16sub1_eq hd.x h1 (by unfold U16; omega)] at hw ⊢
    omega
  · dsimp only [newHead] at hw ⊢
    rw [u16add1_eq hd.x (by unfold U16; omega)] at hw ⊢
    omega

lemma nextHead_inInterior (g : Game) (hh : inInterior g.snake.headI)
    (hw : isWall (nextHead g) = false) : inInterior (nextHead g) :=
  newHead_inInterior g.snake.headI g.next_direction hh hw

lemma new_Inv (f : Nat → Nat × Nat) : Inv (new f).1 := by
  refine ⟨by simp [new], by simp [new], ?_, by simp [new, Direction.opposite]⟩
  intro p hp
  simp [new] at hp
  subst hp
  decide

lemma update_Inv (f : Nat → Nat × Nat) (k : Nat) (g : Game) (h : FoodSupply f k g)
    (hg : Inv g) : Inv (update f k g h).1 := by
  obtain ⟨hne, hnd, hint, hdir⟩ := hg
  rcases (Bool.eq_false_or_eq_true g.game_over).symm with hgo | hgo
  · have hhead : inInterior g.snake.headI := hint _ (headI_mem _ hne)
    rcases (Bool.eq_false_or_eq_true (isWall (nextHead g))).symm with hw | hw
    · have hni : inInterior (nextHead g) := nextHead_inInterior g hhead hw
      rcases (Bool.eq_false_or_eq_true (onSnake g.snake (nextHead g))).symm with hs | hs
      · have hmem : nextHead g ∉ g.snake := (onSnake_false_iff _ _).mp hs
        by_cases hf : nextHead g = g.food
        · rw [update_of_eat f k g h hgo hw hs hf]
          refine ⟨by simp, List.nodup_cons.mpr ⟨hmem, hnd⟩, ?_, ne_opposite_self _⟩
          intro p hp
          rcases List.mem_cons.mp hp with hp | hp
          · exact hp ▸ hni
          · exact hint p hp
        · rw [update_of_move f k g h hgo hw hs hf]
          have hd1 : (nextHead g :: g.snake).dropLast = nextHead g :: g.snake.dropLast :=
            dropLast_cons_ne_nil _ _ hne
          refine ⟨?_, ?_, ?_, ne_opposite_self _⟩
          · show (nextHead g :: g.snake).dropLast ≠ []
            rw [hd1]
            simp
          · show ((nextHead g :: g.snake).dropLast).Nodup
            rw [hd1]
            refine List.nodup_cons.mpr ⟨?_, nodup_dropLast _ hnd⟩
            intro hc
            exact hmem (mem_of_mem_dropLast _ _ hc)
          · show ∀ p ∈ (nextHead g :: g.snake).dropLast, inInterior p
            intro p hp
            rw [hd1] at hp
            rcases List.mem_cons.mp hp with hp | hp
            · exact hp ▸ hni
            · exact hint p (mem_of_mem_dropLast _ _ hp)
      · rw [update_of_self f k g h hgo hw hs]
        exact ⟨hne, hnd, hint, ne_opposite_self _⟩
    · rw [update_of_wall f k g h hgo hw]
      exact ⟨hne, hnd, hint, ne_opposite_self _⟩
  · rw [update_of_game_over f k g h hgo]
    exact ⟨hne, hnd, hint, hdir⟩

lemma requestDirection_Inv (g : Game) (d : Direction) (hg : Inv g) :
    Inv (requestDirection g d) := by
  obtain ⟨hne, hnd, hint, hdir⟩ := hg
  unfold requestDirection
  split
  · exact ⟨hne, hnd, hint, hdir⟩
  · rename_i hcond
    refine ⟨hne, hnd, hint, ?_⟩
    show d ≠ g.direction.opposite
    intro hd
    exact hcond (by rw [hd, opposite_opposite])

lemma requestQuit_Inv (g : Game) (hg : Inv g) : Inv (requestQuit g) := by
  obtain ⟨hne, hnd, hint, hdir⟩ := hg
  exact ⟨hne, hnd, hint, hdir⟩

lemma reachable_Inv (g : Game) (hr : Reachable g) : Inv g := by
  induction hr with
  | init f => exact new_Inv f
  | step f k g h _ ih => exact update_Inv f k g h ih
  | dir g d _ ih => exact requestDirection_Inv g d ih
  | quit g _ ih => exact requestQuit_Inv g ih

lemma posCode_lt (p : Position) (hp : inInterior p) :
    posCode p < (WIDTH - 2) * (HEIGHT - 2) := by
  obtain ⟨h1, h2, h3, h4⟩ := hp
  unfold posCode WIDTH HEIGHT at *
  omega

lemma posCode_inj (p q : Position) (hp : inInterior p) (hq : inInterior q)
    (h : posCode p = posCode q) : p = q := by
  obtain ⟨p1, p2, p3, p4⟩ := hp
  obtain ⟨q1, q2, q3, q4⟩ := hq
  unfold posCode WIDTH HEIGHT at *
  cases p
  cases q
  simp only [Position.mk.injEq]
  dsimp only at *
  omega

lemma length_le_interior (l : List Position) (hnd : l.Nodup)
    (hin : ∀ p ∈ l, inInterior p) : l.length ≤ (WIDTH - 2) * (HEIGHT - 2) := by
  have hmnd : (l.map posCode).Nodup :=
    hnd.map_on fun x hx y hy hxy => posCode_inj x y (hin x hx) (hin y hy) hxy
  have hsub : (l.map posCode).toFinset ⊆ Finset.range ((WIDTH - 2) * (HEIGHT - 2)) := by
    intro n hn
    rw [List.mem_toFinset] at hn
    rw [Finset.mem_range]
    obtain ⟨p, hp, rfl⟩ := List.mem_map.mp hn
    exact posCode_lt p (hin p hp)
  have hcard := Finset.card_le_card hsub
  rw [List.toFinset_card_of_nodup hmnd, Finset.card_range, List.length_map] at hcard
  exact hcard

lemma spawnLoop_of_found (f : Nat → Nat × Nat) (snake : List Position) :
    ∀ n k : Nat, (∀ i, i < n → onSnake snake (generateFood (f (k + i))) = true) →
      onSnake snake (generateFood (f (k + n))) = false →
      spawnLoop f snake k (n + 1) = some (generateFood (f (k + n)), k + n + 1) := by
  intro n
  induction n with
  | zero =>
    intro k _ hfree
    rw [Nat.add_zero] at hfree
    simp only [spawnLoop]
    rw [if_neg (by simp [hfree])]
    simp
  | succ m ih =>
    intro k hbusy hfree
    have h0 : onSnake snake (generateFood (f k)) = true := by
      have := hbusy 0 (Nat.succ_pos m)
      rwa [Nat.add_zero] at this
    simp only [spawnLoop]
    rw [if_pos h0]
    have e : k + 1 + m = k + (m + 1) := by omega
    have ih2 := ih (k + 1)
      (fun i hi => by
        have := hbusy (i + 1) (by omega)
        rwa [show k + (i + 1) = k + 1 + i by omega] at this)
      (by rwa [e.symm] at hfree)
    rw [e] at ih2
    exact ih2

lemma spawnLoop_eq_spawnFood (f : Nat → Nat × Nat) (k : Nat) (snake : List Position)
    (h : ∃ n, onSnake snake (generateFood (f (k + n))) = false) :
    spawnLoop f snake k (Nat.find h + 1) = some (spawnFood f k snake h) := by
  apply spawnLoop_of_found
  · intro i hi
    have hmin := Nat.find_min h hi
    cases hcase : onSnake snake (generateFood (f (k + i)))
    · exact absurd hcase hmin
    · rfl
  · exact Nat.find_spec h

lemma update_score_cases (f : Nat → Nat × Nat) (k : Nat) (g : Game)
    (h : FoodSupply f k g) :
    (update f k g h).1.score = g.score ∨ (update f k g h).1.score = g.score + 1 := by
  rcases (Bool.eq_false_or_eq_true g.game_over).symm with hgo | hgo
  · rcases (Bool.eq_false_or_eq_true (isWall (nextHead g))).symm with hw | hw
    · rcases (Bool.eq_false_or_eq_true (onSnake g.snake (nextHead g))).symm with hs | hs
      · by_cases hf : nextHead g = g.food
        · right
          rw [update_of_eat f k g h hgo hw hs hf]
        · left
          rw [update_of_move f k g h hgo hw hs hf]
      · left
        rw [update_of_self f k g h hgo hw hs]
    · left
      rw [update_of_wall f k g h hgo hw]
  · left
    rw [update_of_game_over f k g h hgo]

lemma update_score_of_eats (f : Nat → Nat × Nat) (k : Nat) (g : Game)
    (h : FoodSupply f k g) (he : eatsFood g) :
    (update f k g h).1.score = g.score + 1 := by
  obtain ⟨hgo, hw, hs, hf⟩ := he
  rw [update_of_eat f k g h hgo hw hs hf]

lemma update_score_of_not_eats (f : Nat → Nat × Nat) (k : Nat) (g : Game)
    (h : FoodSupply f k g) (he : ¬ eatsFood g) :
    (update f k g h).1.score = g.score := by
  rcases (Bool.eq_false_or_eq_true g.game_over).symm with hgo | hgo
  · rcases (Bool.eq_false_or_eq_true (isWall (nextHead g))).symm with hw | hw
    · rcases (Bool.eq_false_or_eq_true (onSnake g.snake (nextHead g))).symm with hs | hs
      · by_cases hf : nextHead g = g.food
        · exact absurd ⟨hgo, hw, hs, hf⟩ he
        · rw [update_of_move f k g h hgo hw hs hf]
      · rw [update_of_self f k g h hgo hw hs]
    · rw [update_of_wall f k g h hgo hw]
  · rw [update_of_game_over f k g h hgo]

lemma stepSeq_score_le (g g' : Game) (hseq : StepSeq g g') : g.score ≤ g'.score := by
  induction hseq with
  | refl g => exact Nat.le_refl _
  | step f k g h g' _ ih =>
    refine Nat.le_trans ?_ ih
    rcases update_score_cases f k g h with hc | hc <;> omega

/-- Claim C1, evidence against it: `Game::new` places its food with a bare
`generate_food()` call and never checks the snake, so the random outcome
whose first draw is `(19, 9)` puts the food on `(20, 10)`, exactly the
center cell occupied by the single initial snake segment.  The claim that
the initial food `does not equal any segment of the initial snake, for
every random outcome` is therefore false of the code (the retry logic lives
only in `spawn_food`, which `new` does not call). -/
theorem new_food_on_initial_snake :
    ((new fun _ => (19, 9)).1).food = { x := 20, y := 10 } ∧
    ((new fun _ => (19, 9)).1).snake = [{ x := 20, y := 10 }] ∧
    ((new fun _ => (19, 9)).1).food ∈ ((new fun _ => (19, 9)).1).snake := by
  refine ⟨?_, ?_, ?_⟩ <;> decide

/-- Claim C2: in a running state whose computed new head lies on the
pre-move body (the current tail included), `update` only sets the game-over
flag; the snake does not move and food and score are untouched.  The
witness below instantiates it with a length-2 snake stepping onto its own
tail. -/
theorem self_collision_pre_move_body (f : Nat → Nat × Nat) (k : Nat) (g : Game)
    (h : FoodSupply f k g) (hgo : g.game_over = false)
    (hmem : nextHead g ∈ g.snake) :
    (update f k g h).1.game_over = true ∧
    (update f k g h).1.snake = g.snake ∧
    (update f k g h).1.score = g.score ∧
    (update f k g h).1.food = g.food := by
  rcases (Bool.eq_false_or_eq_true (isWall (nextHead g))).symm with hw | hw
  · have hs : onSnake g.snake (nextHead g) = true := (onSnake_iff _ _).mpr hmem
    rw [update_of_self f k g h hgo hw hs]
    exact ⟨rfl, rfl, rfl, rfl⟩
  · rw [update_of_wall f k g h hgo hw]
    exact ⟨rfl, rfl, rfl, rfl⟩

/-- Witness for C2: the snake `[(5,5), (4,5)]` moving Left steps into its
own tail cell (4,5) and dies on the spot with the body unchanged. -/
theorem self_collision_pre_move_body_witness :
    (update rngZero 0 gTail hSupplyTail).1.game_over = true ∧
    (update rngZero 0 gTail hSupplyTail).1.snake = gTail.snake ∧
    (update rngZero 0 gTail hSupplyTail).1.score = gTail.score ∧
    (update rngZero 0 gTail hSupplyTail).1.food = gTail.food :=
  self_collision_pre_move_body rngZero 0 gTail hSupplyTail rfl (by decide)

/-- Claim C3, the growth law: in a running state whose move hits neither
wall nor body, eating (new head on the food) grows the snake by one
segment, bumps the score by one and spawns food off the whole grown snake;
not eating keeps the length and shifts the body, the new head consed onto
the old body minus its tail, with the score unchanged. -/
theorem growth_law (f : Nat → Nat × Nat) (k : Nat) (g : Game)
    (h : FoodSupply f k g) (hgo : g.game_over = false)
    (hw : isWall (nextHead g) = false) (hs : onSnake g.snake (nextHead g) = false)
    (hne : g.snake ≠ []) :
    (nextHead g = g.food →
      (update f k g h).1.snake.length = g.snake.length + 1 ∧
      (update f k g h).1.score = g.score + 1 ∧
      (update f k g h).1.food ∉ (update f k g h).1.snake) ∧
    (nextHead g ≠ g.food →
      (update f k g h).1.snake.length = g.snake.length ∧
      (update f k g h).1.snake = nextHead g :: g.snake.dropLast ∧
      (update f k g h).1.score = g.score) := by
  constructor
  · intro hf
    rw [update_of_eat f k g h hgo hw hs hf]
    exact ⟨by simp, rfl, spawnFood_not_mem f k (nextHead g :: g.snake) h⟩
  · intro hf
    rw [update_of_move f k g h hgo hw hs hf]
    have hd1 : (nextHead g :: g.snake).dropLast = nextHead g :: g.snake.dropLast :=
      dropLast_cons_ne_nil _ _ hne
    refine ⟨?_, hd1, rfl⟩
    show ((nextHead g :: g.snake).dropLast).length = g.snake.length
    simp

/-- Witness for C3, eating branch: the snake `[(9,10)]` moving Right onto
the food at (10,10) grows to length 2, its score goes from 5 to 6, and the
spawned food misses the grown snake. -/
theorem growth_law_witness :
    (update rngZero 0 gEat hSupplyEat).1.snake.length = gEat.snake.length + 1 ∧
    (update rngZero 0 gEat hSupplyEat).1.score = gEat.score + 1 ∧
    (update rngZero 0 gEat hSupplyEat).1.food ∉ (update rngZero 0 gEat hSupplyEat).1.snake :=
  (growth_law rngZero 0 gEat hSupplyEat rfl (by decide) (by decide)
    (by decide)).1 (by decide)

/-- Claim C4, the termination law: in a running state whose computed new
head is a border cell, `update` only sets the game-over flag and commits
the buffered direction; snake, food, score, buffered direction and the
random cursor are all unchanged that tick. -/
theorem wall_termination (f : Nat → Nat × Nat) (k : Nat) (g : Game)
    (h : FoodSupply f k g) (hgo : g.game_over = false)
    (hw : isWall (nextHead g) = true) :
    (update f k g h).1.game_over = true ∧
    (update f k g h).1.snake = g.snake ∧
    (update f k g h).1.food = g.food ∧
    (update f k g h).1.score = g.score ∧
    (update f k g h).1.direction = g.next_direction ∧
    (update f k g h).1.next_direction = g.next_direction ∧
    (update f k g h).2 = k := by
  rw [update_of_wall f k g h hgo hw]
  exact ⟨rfl, rfl, rfl, rfl, rfl, rfl, rfl⟩

/-- Witness for C4: the snake `[(38,10)]` moving Right into wall column 39
dies with body, food and score untouched. -/
theorem wall_termination_witness :
    (update rngZero 0 gWall hSupplyWall).1.game_over = true ∧
    (update rngZero 0 gWall hSupplyWall).1.snake = gWall.snake ∧
    (update rngZero 0 gWall hSupplyWall).1.food = gWall.food ∧
    (update rngZero 0 gWall hSupplyWall).1.score = gWall.score ∧
    (update rngZero 0 gWall hSupplyWall).1.direction = gWall.next_direction ∧
    (update rngZero 0 gWall hSupplyWall).1.next_direction = gWall.next_direction ∧
    (update rngZero 0 gWall hSupplyWall).2 = 0 :=
  wall_termination rngZero 0 gWall hSupplyWall rfl (by decide)

/-- Claim C5, underflow safety: in every reachable running state the head
has both coordinates at least 1, so the wrapping `u16` decrements that
`update` computes for the Up and Left moves coincide with the exact
subtractions by one: the `u16` head arithmetic neither wraps nor panics. -/
theorem no_underflow (g : Game) (hr : Reachable g) (hgo : g.game_over = false) :
    1 ≤ g.snake.headI.x ∧ 1 ≤ g.snake.headI.y ∧
    u16sub1 g.snake.headI.x = g.snake.headI.x - 1 ∧
    u16sub1 g.snake.headI.y = g.snake.headI.y - 1 := by
  obtain ⟨hne, -, hint, -⟩ := reachable_Inv g hr
  obtain ⟨h1, h2, h3, h4⟩ := hint _ (headI_mem _ hne)
  refine ⟨h1, h3, u16sub1_eq _ h1 ?_, u16sub1_eq _ h3 ?_⟩ <;>
    (unfold U16 WIDTH HEIGHT at *; omega)

/-- Witness for C5 at the initial state. -/
theorem no_underflow_witness :
    1 ≤ ((new rngZero).1).snake.headI.x ∧ 1 ≤ ((new rngZero).1).snake.headI.y ∧
    u16sub1 ((new rngZero).1).snake.headI.x = ((new rngZero).1).snake.headI.x - 1 ∧
    u16sub1 ((new rngZero).1).snake.headI.y = ((new rngZero).1).snake.headI.y - 1 :=
  no_underflow (new rngZero).1 (Reachable.init rngZero) rfl

/-- Claim C6, the reachable-state invariant: every state reachable from
`Game::new` by ticks, direction requests and quit has a nonempty snake no
longer than the interior cell count, all segments interior while the state
is running (in fact always), and in particular the head lookup
`snake.front().unwrap()` never faces an empty snake. -/
theorem reachable_state_bounds (g : Game) (hr : Reachable g) :
    1 ≤ g.snake.length ∧
    g.snake.length ≤ (WIDTH - 2) * (HEIGHT - 2) ∧
    (g.game_over = false → ∀ p ∈ g.snake, inInterior p) ∧
    g.snake ≠ [] := by
  obtain ⟨hne, hnd, hint, -⟩ := reachable_Inv g hr
  exact ⟨List.length_pos.mpr hne, length_le_interior _ hnd hint,
    fun _ => hint, hne⟩

/-- Witness for C6 at the initial state. -/
theorem reachable_state_bounds_witness :
    1 ≤ ((new rngZero).1).snake.length ∧
    ((new rngZero).1).snake.length ≤ (WIDTH - 2) * (HEIGHT - 2) ∧
    (((new rngZero).1).game_over = false → ∀ p ∈ ((new rngZero).1).snake, inInterior p) ∧
    ((new rngZero).1).snake ≠ [] :=
  reachable_state_bounds (new rngZero).1 (Reachable.init rngZero)

/-- Claim C7, anti-reversal: requesting the exact opposite of the current
direction is a silent no-op (the key handler tests the current, not the
buffered, direction), and the direction a tick commits is never the
opposite of the pre-tick current direction, on any reachable state. -/
theorem anti_reversal (g : Game) (hr : Reachable g) (f : Nat → Nat × Nat)
    (k : Nat) (h : FoodSupply f k g) :
    requestDirection g g.direction.opposite = g ∧
    (update f k g h).1.direction ≠ g.direction.opposite := by
  obtain ⟨-, -, -, hdir⟩ := reachable_Inv g hr
  constructor
  · unfold requestDirection
    rw [if_pos (by rw [opposite_opposite])]
  · rcases (Bool.eq_false_or_eq_true g.game_over).symm with hgo | hgo
    · have hd : (update f k g h).1.direction = g.next_direction := by
        rcases (Bool.eq_false_or_eq_true (isWall (nextHead g))).symm with hw | hw
        · rcases (Bool.eq_false_or_eq_true (onSnake g.snake (nextHead g))).symm with hs | hs
          · by_cases hf : nextHead g = g.food
            · rw [update_of_eat f k g h hgo hw hs hf]
            · rw [update_of_move f k g h hgo hw hs hf]
          · rw [update_of_self f k g h hgo hw hs]
        · rw [update_of_wall f k g h hgo hw]
      rw [hd]
      exact hdir
    · rw [update_of_game_over f k g h hgo]
      exact ne_opposite_self g.direction

/-- Witness for C7 at the initial state (current direction Right, its
opposite Left is rejected and the next tick still does not commit Left). -/
theorem anti_reversal_witness :
    requestDirection (new rngZero).1 ((new rngZero).1).direction.opposite = (new rngZero).1 ∧
    (update rngZero 1 (new rngZero).1 hSupplyNew).1.direction ≠
      ((new rngZero).1).direction.opposite :=
  anti_reversal (new rngZero).1 (Reachable.init rngZero) rngZero 1 hSupplyNew

/-- Claim C8, one-way terminal flag: on a state already game over, `update`
returns the state (and cursor) verbatim, and neither a direction request
nor quit clears the flag, so once game over, always game over. -/
theorem terminal_one_way (f : Nat → Nat × Nat) (k : Nat) (g : Game)
    (h : FoodSupply f k g) (d : Direction) (hgo : g.game_over = true) :
    update f k g h = (g, k) ∧
    (requestDirection g d).game_over = true ∧
    (requestQuit g).game_over = true := by
  refine ⟨update_of_game_over f k g h hgo, ?_, rfl⟩
  unfold requestDirection
  split
  · exact hgo
  · exact hgo

/-- Witness for C8 at a concrete game-over state. -/
theorem terminal_one_way_witness :
    update rngZero 0 gOver hSupplyOver = (gOver, 0) ∧
    (requestDirection gOver .Left).game_over = true ∧
    (requestQuit gOver).game_over = true :=
  terminal_one_way rngZero 0 gOver hSupplyOver .Left rfl

/-- Claim C9, score monotonicity: the score never decreases along any
sequence of ticks, and one tick raises it by exactly one when the move
consumes the food and leaves it unchanged otherwise. -/
theorem score_monotone :
    (∀ g g' : Game, StepSeq g g' → g.score ≤ g'.score) ∧
    (∀ (f : Nat → Nat × Nat) (k : Nat) (g : Game) (h : FoodSupply f k g),
      (eatsFood g → (update f k g h).1.score = g.score + 1) ∧
      (¬ eatsFood g → (update f k g h).1.score = g.score)) :=
  ⟨stepSeq_score_le,
   fun f k g h => ⟨update_score_of_eats f k g h, update_score_of_not_eats f k g h⟩⟩

/-- Witness for C9: one eating tick from `gEat` does not decrease the
score. -/
theorem score_monotone_witness :
    gEat.score ≤ (update rngZero 0 gEat hSupplyEat).1.score :=
  score_monotone.1 gEat (update rngZero 0 gEat hSupplyEat).1
    (StepSeq.step rngZero 0 gEat hSupplyEat _ (StepSeq.refl _))

/-- Claim C10, food-spawner termination and postcondition: whenever the
random stream eventually proposes a cell off the snake (in particular
whenever it eventually proposes every free interior cell and one exists),
the retry loop of `spawn_food` terminates with some fuel, and the food it
returns is interior and off every snake segment. -/
theorem spawn_terminates (f : Nat → Nat × Nat) (k : Nat) (snake : List Position)
    (h : ∃ n, onSnake snake (generateFood (f (k + n))) = false) :
    (∃ fuel, spawnLoop f snake k fuel = some (spawnFood f k snake h)) ∧
    inInterior (spawnFood f k snake h).1 ∧
    (spawnFood f k snake h).1 ∉ snake :=
  ⟨⟨Nat.find h + 1, spawnLoop_eq_spawnFood f k snake h⟩,
   spawnFood_inInterior f k snake h, spawnFood_not_mem f k snake h⟩

/-- Witness for C10 on the singleton center snake. -/
theorem spawn_terminates_witness :
    (∃ fuel, spawnLoop rngZero [{ x := 20, y := 10 }] 0 fuel =
      some (spawnFood rngZero 0 [{ x := 20, y := 10 }] hSupplySingle)) ∧
    inInterior (spawnFood rngZero 0 [{ x := 20, y := 10 }] hSupplySingle).1 ∧
    (spawnFood rngZero 0 [{ x := 20, y := 10 }] hSupplySingle).1 ∉
      [({ x := 20, y := 10 } : Position)] :=
  spawn_terminates rngZero 0 [{ x := 20, y := 10 }] hSupplySingle

end Snekrs
